import Mathlib

/-!
Shallow embedding of the reinsurance dashboard core
(`successfulreinsurancedash.py`): schema validation, filter engine,
metrics engine, aggregation engine and the compact currency formatter.
Rows are records over the seven required columns; numeric cells are
modelled as rationals, years as integers.
-/

namespace ReinsuranceDash

/-- One row of the uploaded dataset: the seven required columns. -/
structure Row where
  region : String
  lossAmount : Rat
  policyType : String
  year : Int
  claimCount : Rat
  riskCategory : String
  premiumCollected : Rat
deriving DecidableEq, Repr

/-- A dataset is an ordered collection of rows. -/
abbrev Dataset := List Row

/-- The three multiselect filters of the sidebar: allowed values for
`Region`, `Year` and `Policy Type`. -/
structure FilterSelection where
  regions : List String
  years : List Int
  policyTypes : List String
deriving DecidableEq, Repr

/-- The row predicate of the filter engine: conjunction of the three
`isin` membership tests (source lines 70-74). -/
def rowPasses (s : FilterSelection) (r : Row) : Bool :=
  decide (r.region ∈ s.regions) && decide (r.year ∈ s.years) &&
    decide (r.policyType ∈ s.policyTypes)

/-- `filtered_df = df[df["Region"].isin(...) & df["Year"].isin(...) &
df["Policy Type"].isin(...)]` (source lines 70-74). -/
def filtered_df (df : Dataset) (s : FilterSelection) : Dataset :=
  df.filter (rowPasses s)

/-- The default filter selection: every distinct value present in the
dataset for each of the three columns (source lines 65-67,
`default=list(df[col].unique())`). -/
def defaultSelection (df : Dataset) : FilterSelection :=
  { regions := (df.map Row.region).dedup
    years := (df.map Row.year).dedup
    policyTypes := (df.map Row.policyType).dedup }

/-- `total_premium = filtered_df["Premium Collected"].sum()` (line 132). -/
def total_premium (fd : Dataset) : Rat := (fd.map Row.premiumCollected).sum

/-- `total_loss = filtered_df["Loss Amount"].sum()` (line 133). -/
def total_loss (fd : Dataset) : Rat := (fd.map Row.lossAmount).sum

/-- `claim_count = filtered_df["Claim Count"].sum()` (line 134). -/
def claim_count (fd : Dataset) : Rat := (fd.map Row.claimCount).sum

/-- `loss_ratio = total_loss / total_premium if total_premium else 0`
(line 135): Python numeric truthiness is non-zeroness. -/
def loss_ratio (fd : Dataset) : Rat :=
  if total_premium fd ≠ 0 then total_loss fd / total_premium fd else 0

/-- `avg_severity = total_loss / claim_count if claim_count else 0`
(line 136). -/
def avg_severity (fd : Dataset) : Rat :=
  if claim_count fd ≠ 0 then total_loss fd / claim_count fd else 0

/-- `underwriting_margin = total_premium - total_loss` (line 137). -/
def underwriting_margin (fd : Dataset) : Rat :=
  total_premium fd - total_loss fd

/-- `margin_percent = underwriting_margin / total_premium if total_premium
else 0` (line 138). -/
def margin_percent (fd : Dataset) : Rat :=
  if total_premium fd ≠ 0 then underwriting_margin fd / total_premium fd else 0

/-- Distinct group keys of a grouping dimension present in the filtered
dataset: the domain of `filtered_df.groupby(dimension)`. -/
def groupKeys {K : Type} [DecidableEq K] (fd : Dataset) (dim : Row → K) :
    List K :=
  (fd.map dim).dedup

/-- The rows of one group: those whose dimension value equals the key. -/
def groupRows {K : Type} [DecidableEq K] (fd : Dataset) (dim : Row → K)
    (k : K) : Dataset :=
  fd.filter (fun r => decide (dim r = k))

/-- Single-measure aggregation,
`filtered_df.groupby(dimension)[measure].sum().reset_index()`
(source lines 167 and 179): one (key, summed measure) row per distinct
key. -/
def groupSum {K : Type} [DecidableEq K] (fd : Dataset) (dim : Row → K)
    (measure : Row → Rat) : List (K × Rat) :=
  (groupKeys fd dim).map
    (fun k => (k, ((groupRows fd dim k).map measure).sum))

/-- One row of the two-measure aggregation table. -/
structure AggRow2 (K : Type) where
  key : K
  premiumSum : Rat
  lossSum : Rat
  underwritingMargin : Rat
deriving DecidableEq, Repr

/-- Two-measure aggregation with derived margin,
`filtered_df.groupby(dimension)[["Premium Collected", "Loss Amount"]].sum()`
followed by
`group_df["Underwriting Margin"] = group_df["Premium Collected"] -
group_df["Loss Amount"]` (source lines 172-173). -/
def groupTwoMeasures {K : Type} [DecidableEq K] (fd : Dataset)
    (dim : Row → K) : List (AggRow2 K) :=
  (groupKeys fd dim).map
    (fun k =>
      { key := k
        premiumSum := ((groupRows fd dim k).map Row.premiumCollected).sum
        lossSum := ((groupRows fd dim k).map Row.lossAmount).sum
        underwritingMargin :=
          ((groupRows fd dim k).map Row.premiumCollected).sum -
            ((groupRows fd dim k).map Row.lossAmount).sum })

/-- Floor of a rational as an integer, written with floor division so
that it evaluates inside the kernel. -/
def ratFloor (q : Rat) : Int := Int.fdiv q.num (q.den : Int)

/-- Round a rational to the nearest integer, ties to even: the rounding
used by Python fixed-point string formatting. -/
def roundHalfEven (q : Rat) : Int :=
  let f : Int := ratFloor q
  let frac : Rat := q - (f : Rat)
  if frac < 1 / 2 then f
  else if 1 / 2 < frac then f + 1
  else if f % 2 = 0 then f else f + 1

/-- Python `f"{q:.1f}"` on an exact rational: one digit after the decimal
point, ties to even, sign in front. -/
def formatFixed1 (q : Rat) : String :=
  let n : Int := roundHalfEven (q * 10)
  let a : Nat := n.natAbs
  (if n < 0 then "-" else "") ++ toString (a / 10) ++ "." ++ toString (a % 10)

/-- Groups a reversed digit list in blocks of three, inserting commas. -/
def commaChunks : List Char → List Char
  | [] => []
  | [a] => [a]
  | [a, b] => [a, b]
  | [a, b, c] => [a, b, c]
  | a :: b :: c :: d :: rest => a :: b :: c :: ',' :: commaChunks (d :: rest)

/-- Python `f"{q:,.0f}"` on an exact rational: round to an integer, ties
to even, thousands separators, sign in front. -/
def formatCommas0 (q : Rat) : String :=
  let n : Int := roundHalfEven q
  let digits : List Char := (toString n.natAbs).data
  (if n < 0 then "-" else "") ++ String.mk (commaChunks digits.reverse).reverse

/-- `format_dollars_short` (source lines 76-85): magnitude thresholds on
the absolute value, scaled one-decimal rendering with a B/M/K suffix, and
a comma-separated integer rendering below one thousand. -/
def format_dollars_short (n : Rat) : String :=
  let abs_n : Rat := |n|
  if abs_n ≥ 1000000000 then "$" ++ formatFixed1 (n / 1000000000) ++ "B"
  else if abs_n ≥ 1000000 then "$" ++ formatFixed1 (n / 1000000) ++ "M"
  else if abs_n ≥ 1000 then "$" ++ formatFixed1 (n / 1000) ++ "K"
  else "$" ++ formatCommas0 n

/-- `REQUIRED_COLUMNS` (source lines 12-15). -/
def REQUIRED_COLUMNS : List String :=
  ["Region", "Loss Amount", "Policy Type",
   "Year", "Claim Count", "Risk Category", "Premium Collected"]

/-- A raw tabular upload before schema validation: named columns and
untyped cell rows. -/
structure RawTable where
  columns : List String
  cells : List (List String)
deriving DecidableEq, Repr

/-- `all(col in df.columns for col in REQUIRED_COLUMNS)`
(source line 46). -/
def schemaCheck (t : RawTable) : Bool :=
  REQUIRED_COLUMNS.all (fun col => decide (col ∈ t.columns))

/-- The ingestion step (source lines 46-51): on a failed schema check the
upload is rejected with an error and no dataset is set (`none`);
otherwise the table becomes the session dataset unchanged, with no
validation of cell values. -/
def uploadStep (t : RawTable) : Option RawTable :=
  if schemaCheck t then some t else none

/-- Sample row from the scenario of the specification: Region A,
Year 2020, Policy Type X, Loss 100, Premium 200, Claims 2. -/
def rowA : Row :=
  { region := "A", lossAmount := 100, policyType := "X", year := 2020,
    claimCount := 2, riskCategory := "High", premiumCollected := 200 }

/-- Sample row from the scenario of the specification: Region B,
Year 2021, Policy Type Y, Loss 50, Premium 0, Claims 0. -/
def rowB : Row :=
  { region := "B", lossAmount := 50, policyType := "Y", year := 2021,
    claimCount := 0, riskCategory := "Low", premiumCollected := 0 }

/-- The aggregation row produced for the single group of `[rowA]` when
grouping by region with both measures. -/
def aggA : AggRow2 String :=
  { key := "A", premiumSum := 200, lossSum := 100, underwritingMargin := 100 }

/-- A raw upload carrying exactly the required columns. -/
def goodTable : RawTable :=
  { columns := REQUIRED_COLUMNS, cells := [["x", "y"]] }

end ReinsuranceDash

namespace ReinsuranceDash

lemma sum_map_ite_zero_of_not_mem {K : Type} [DecidableEq K] (c : Rat)
    (v : K) :
    ∀ keys : List K, v ∉ keys →
      (keys.map (fun k => if v = k then c else 0)).sum = 0 := by
  intro keys
  induction keys with
  | nil => intro _; simp
  | cons k ks ih =>
    intro hv
    have hvk : v ≠ k := fun h => hv (h ▸ List.mem_cons_self k ks)
    have hvks : v ∉ ks := fun h => hv (List.mem_cons_of_mem k h)
    simp [hvk, ih hvks]

lemma sum_map_ite_zero {K : Type} [DecidableEq K] (c : Rat) (v : K) :
    ∀ keys : List K, keys.Nodup → v ∈ keys →
      (keys.map (fun k => if v = k then c else 0)).sum = c := by
  intro keys
  induction keys with
  | nil => intro _ h; cases h
  | cons k ks ih =>
    intro hnd hv
    rcases List.mem_cons.mp hv with h | h
    · subst h
      have hnot : v ∉ ks := (List.nodup_cons.mp hnd).1
      simp [sum_map_ite_zero_of_not_mem c v ks hnot]
    · have hvk : v ≠ k := by
        intro he
        exact (List.nodup_cons.mp hnd).1 (he ▸ h)
      simp [hvk, ih (List.nodup_cons.mp hnd).2 h]

lemma sum_map_add_split {K : Type} (f g : K → Rat) :
    ∀ l : List K,
      (l.map (fun k => f k + g k)).sum = (l.map f).sum + (l.map g).sum := by
  intro l
  induction l with
  | nil => simp
  | cons k ks ih => simp [ih]; ring

lemma sum_over_keys {K : Type} [DecidableEq K] (dim : Row → K)
    (m : Row → Rat) :
    ∀ (l : List Row) (keys : List K), keys.Nodup →
      (∀ r ∈ l, dim r ∈ keys) →
      (keys.map
          (fun k => ((l.filter (fun x => decide (dim x = k))).map m).sum)).sum
        = (l.map m).sum := by
  intro l
  induction l with
  | nil => intro keys _ _; simp
  | cons r t ih =>
    intro keys hnd hcov
    have hr : dim r ∈ keys := hcov r (List.mem_cons_self r t)
    have hcovt : ∀ x ∈ t, dim x ∈ keys :=
      fun x hx => hcov x (List.mem_cons_of_mem r hx)
    have step : (fun k =>
          (((r :: t).filter (fun x => decide (dim x = k))).map m).sum)
        = (fun k => (if dim r = k then m r else 0)
            + ((t.filter (fun x => decide (dim x = k))).map m).sum) := by
      funext k
      by_cases h : dim r = k
      · simp [List.filter_cons, h]
      · simp [List.filter_cons, h]
    rw [step, sum_map_add_split, sum_map_ite_zero (m r) (dim r) keys hnd hr,
      ih keys hnd hcovt]
    simp

/-- C1: the derived ratio metrics are total: `loss_ratio` is
`total_loss / total_premium` when `total_premium` is non-zero and `0`
when it is zero; `avg_severity` is `total_loss / claim_count` when
`claim_count` is non-zero and `0` when it is zero; `margin_percent` is
`underwriting_margin / total_premium` when `total_premium` is non-zero
and `0` when it is zero. No zero denominator produces an error or a
non-value. -/
theorem ratio_metrics_total (fd : Dataset) :
    (total_premium fd ≠ 0 → loss_ratio fd = total_loss fd / total_premium fd) ∧
    (total_premium fd = 0 → loss_ratio fd = 0) ∧
    (claim_count fd ≠ 0 → avg_severity fd = total_loss fd / claim_count fd) ∧
    (claim_count fd = 0 → avg_severity fd = 0) ∧
    (total_premium fd ≠ 0 →
      margin_percent fd = underwriting_margin fd / total_premium fd) ∧
    (total_premium fd = 0 → margin_percent fd = 0) := by
  refine ⟨fun h => ?_, fun h => ?_, fun h => ?_, fun h => ?_,
    fun h => ?_, fun h => ?_⟩ <;>
    simp [loss_ratio, avg_severity, margin_percent, h]

/-- Witness for C1 on the scenario rows of the specification. -/
theorem ratio_metrics_total_witness :
    loss_ratio [rowA] = total_loss [rowA] / total_premium [rowA] ∧
    loss_ratio [rowB] = 0 ∧ avg_severity [rowB] = 0 ∧
    margin_percent [rowB] = 0 :=
  ⟨(ratio_metrics_total [rowA]).1 (by norm_num [total_premium, rowA]),
   (ratio_metrics_total [rowB]).2.1 (by norm_num [total_premium, rowB]),
   (ratio_metrics_total [rowB]).2.2.2.1 (by norm_num [claim_count, rowB]),
   (ratio_metrics_total [rowB]).2.2.2.2.2 (by norm_num [total_premium, rowB])⟩

/-- C2: `underwriting_margin` always equals
`total_premium - total_loss`, and on the empty filtered dataset every
metric (the three sums and the four derived values) equals `0`. -/
theorem margin_identity_and_empty_metrics :
    (∀ fd : Dataset, underwriting_margin fd = total_premium fd - total_loss fd) ∧
    total_premium [] = 0 ∧ total_loss [] = 0 ∧ claim_count [] = 0 ∧
    loss_ratio [] = 0 ∧ avg_severity [] = 0 ∧ underwriting_margin [] = 0 ∧
    margin_percent [] = 0 := by
  refine ⟨fun fd => rfl, ?_, ?_, ?_, ?_, ?_, ?_, ?_⟩ <;>
    simp [total_premium, total_loss, claim_count, loss_ratio, avg_severity,
      underwriting_margin, margin_percent]

/-- C3: the filter engine returns exactly the rows whose `Region`,
`Year` and `Policy Type` belong to the respective selection sets; the
result is a sub-collection of the dataset, and an empty selection set
for any dimension yields the empty result. -/
theorem filter_engine_membership (df : Dataset) (s : FilterSelection) :
    (∀ r : Row, r ∈ filtered_df df s ↔
      r ∈ df ∧ r.region ∈ s.regions ∧ r.year ∈ s.years ∧
        r.policyType ∈ s.policyTypes) ∧
    List.Sublist (filtered_df df s) df ∧
    (s.regions = [] → filtered_df df s = []) ∧
    (s.years = [] → filtered_df df s = []) ∧
    (s.policyTypes = [] → filtered_df df s = []) := by
  refine ⟨fun r => ?_, List.filter_sublist df, fun h => ?_, fun h => ?_,
    fun h => ?_⟩
  · simp [filtered_df, rowPasses, List.mem_filter, and_assoc]
  · simp [filtered_df, rowPasses, h, List.filter_eq_nil_iff]
  · simp [filtered_df, rowPasses, h, List.filter_eq_nil_iff]
  · simp [filtered_df, rowPasses, h, List.filter_eq_nil_iff]

/-- Witness for C3: an empty region selection empties the result, and
membership holds as characterised on the scenario dataset. -/
theorem filter_engine_membership_witness :
    filtered_df [rowA, rowB]
        { regions := [], years := [2020, 2021], policyTypes := ["X", "Y"] }
      = [] :=
  (filter_engine_membership [rowA, rowB]
      { regions := [], years := [2020, 2021], policyTypes := ["X", "Y"] }).2.2.1
    rfl

/-- C4: filtering with the default selection (all distinct values of
each of the three columns) returns the dataset unchanged. -/
theorem default_selection_identity (df : Dataset) :
    filtered_df df (defaultSelection df) = df := by
  rw [filtered_df]
  apply List.filter_eq_self.mpr
  intro r hr
  simp only [rowPasses, defaultSelection, Bool.and_eq_true, decide_eq_true_eq,
    List.mem_dedup]
  exact ⟨⟨List.mem_map_of_mem Row.region hr, List.mem_map_of_mem Row.year hr⟩,
    List.mem_map_of_mem Row.policyType hr⟩

/-- C5: filtering is idempotent: filtering an already-filtered dataset
with the same selection returns it unchanged. -/
theorem filter_idempotent (df : Dataset) (s : FilterSelection) :
    filtered_df (filtered_df df s) s = filtered_df df s := by
  apply List.filter_eq_self.mpr
  intro r hr
  exact (List.mem_filter.mp hr).2

/-- C6: group-by-and-sum reconciles: for any grouping dimension and any
measure, the sum of the summed measure over the rows of the aggregation
table equals the ungrouped sum of the measure over the filtered
dataset. -/
theorem aggregation_totals_reconcile {K : Type} [DecidableEq K]
    (fd : Dataset) (dim : Row → K) (measure : Row → Rat) :
    ((groupSum fd dim measure).map Prod.snd).sum = (fd.map measure).sum := by
  unfold groupSum groupRows groupKeys
  rw [List.map_map]
  exact sum_over_keys dim measure fd ((fd.map dim).dedup)
    (List.nodup_dedup (fd.map dim))
    (fun r hr => List.mem_dedup.mpr (List.mem_map_of_mem dim hr))

/-- C7: in the two-measure aggregation every table row carries an
`Underwriting Margin` equal to the group's premium sum minus the
group's loss sum. -/
theorem per_group_margin {K : Type} [DecidableEq K] (fd : Dataset)
    (dim : Row → K) (row : AggRow2 K) (h : row ∈ groupTwoMeasures fd dim) :
    row.underwritingMargin
      = ((groupRows fd dim row.key).map Row.premiumCollected).sum
        - ((groupRows fd dim row.key).map Row.lossAmount).sum := by
  rcases List.mem_map.mp h with ⟨k, hk, rfl⟩
  rfl

/-- Witness for C7 on the one-group dataset `[rowA]`. -/
theorem per_group_margin_witness :
    aggA ∈ groupTwoMeasures [rowA] Row.region ∧
    aggA.underwritingMargin
      = ((groupRows [rowA] Row.region aggA.key).map Row.premiumCollected).sum
        - ((groupRows [rowA] Row.region aggA.key).map Row.lossAmount).sum := by
  have heq : groupTwoMeasures [rowA] Row.region = [aggA] := by
    with_unfolding_all rfl
  have hmem : aggA ∈ groupTwoMeasures [rowA] Row.region := by
    rw [heq]; exact List.mem_singleton.mpr rfl
  exact ⟨hmem, per_group_margin [rowA] Row.region aggA hmem⟩

/-- C9: the schema check accepts a raw table exactly when all seven
required column names are present (case-sensitive equality); rejection
sets no dataset, acceptance returns the table unchanged with no cell
validation, and a lower-case column name is rejected. -/
theorem schema_validation_characterised (t : RawTable) :
    (uploadStep t = some t ↔ ∀ col ∈ REQUIRED_COLUMNS, col ∈ t.columns) ∧
    (uploadStep t = none ↔ ∃ col ∈ REQUIRED_COLUMNS, col ∉ t.columns) ∧
    (∀ d : RawTable, uploadStep t = some d → d = t) ∧
    uploadStep
        { columns := ["region", "Loss Amount", "Policy Type", "Year",
            "Claim Count", "Risk Category", "Premium Collected"],
          cells := [] }
      = none := by
  have hiff : schemaCheck t = true ↔ ∀ col ∈ REQUIRED_COLUMNS, col ∈ t.columns := by
    simp [schemaCheck, List.all_eq_true]
  refine ⟨?_, ?_, ?_, by decide⟩
  · constructor
    · intro h
      by_contra hc
      have : schemaCheck t ≠ true := fun hs => hc (hiff.mp hs)
      simp [uploadStep, this] at h
    · intro h
      simp [uploadStep, hiff.mpr h]
  · constructor
    · intro h
      by_contra hc
      push_neg at hc
      have : schemaCheck t = true := hiff.mpr hc
      simp [uploadStep, this] at h
    · intro h
      rcases h with ⟨col, hcol, hnot⟩
      have : schemaCheck t ≠ true := fun hs => hnot (hiff.mp hs col hcol)
      simp [uploadStep, this]
  · intro d hd
    by_cases hs : schemaCheck t = true
    · simp [uploadStep, hs] at hd
      exact hd.symm
    · simp [uploadStep, hs] at hd

/-- Witness for C9: the well-formed table is accepted unchanged. -/
theorem schema_validation_characterised_witness :
    uploadStep goodTable = some goodTable :=
  (schema_validation_characterised goodTable).1.mpr (by decide)

/-- C10: the filter engine returns a subsequence of the dataset: the
surviving rows keep their original relative order and their cell values
are unchanged. -/
theorem filter_preserves_order_and_contents (df : Dataset)
    (s : FilterSelection) :
    List.Sublist (filtered_df df s) df :=
  List.filter_sublist df

/-- C8: the compact currency formatter is total, applies its magnitude
thresholds to the absolute value of the input while preserving sign
(absolute value at least 1e9 renders scaled by 1e9 with a "B" suffix,
at least 1e6 with "M", at least 1e3 with "K", smaller inputs as a
comma-separated integer), always prefixed with "$"; and at the
specification's sample points: 999 gives "$999", 1500 gives "$1.5K",
2300000 gives "$2.3M", 4000000000 gives "$4.0B" and -500 gives
"$-500". -/
theorem format_dollars_short_spec :
    (∀ n : Rat, 1000000000 ≤ |n| →
      format_dollars_short n = "$" ++ formatFixed1 (n / 1000000000) ++ "B") ∧
    (∀ n : Rat, |n| < 1000000000 → 1000000 ≤ |n| →
      format_dollars_short n = "$" ++ formatFixed1 (n / 1000000) ++ "M") ∧
    (∀ n : Rat, |n| < 1000000 → 1000 ≤ |n| →
      format_dollars_short n = "$" ++ formatFixed1 (n / 1000) ++ "K") ∧
    (∀ n : Rat, |n| < 1000 →
      format_dollars_short n = "$" ++ formatCommas0 n) ∧
    format_dollars_short 999 = "$999" ∧
    format_dollars_short 1500 = "$1.5K" ∧
    format_dollars_short 2300000 = "$2.3M" ∧
    format_dollars_short 4000000000 = "$4.0B" ∧
    format_dollars_short (-500) = "$-500" := by
  refine ⟨fun n h => ?_, fun n h1 h2 => ?_, fun n h1 h2 => ?_, fun n h => ?_,
    by with_unfolding_all rfl, by with_unfolding_all rfl,
    by with_unfolding_all rfl, by with_unfolding_all rfl,
    by with_unfolding_all rfl⟩
  · simp only [format_dollars_short, ge_iff_le]
    rw [if_pos h]
  · simp only [format_dollars_short, ge_iff_le]
    rw [if_neg (not_le.mpr h1), if_pos h2]
  · simp only [format_dollars_short, ge_iff_le]
    rw [if_neg (not_le.mpr (lt_trans h1 (by norm_num))),
      if_neg (not_le.mpr h1), if_pos h2]
  · simp only [format_dollars_short, ge_iff_le]
    rw [if_neg (not_le.mpr (lt_trans h (by norm_num))),
      if_neg (not_le.mpr (lt_trans h (by norm_num))),
      if_neg (not_le.mpr h)]

/-- Witness for C8: the "K" branch applied at 1500. -/
theorem format_dollars_short_spec_witness :
    |(1500 : Rat)| < 1000000 ∧ (1000 : Rat) ≤ |(1500 : Rat)| ∧
    format_dollars_short 1500 = "$" ++ formatFixed1 (1500 / 1000) ++ "K" := by
  have habs : |(1500 : Rat)| = 1500 := abs_of_pos (by norm_num)
  exact ⟨by rw [habs]; norm_num, by rw [habs]; norm_num,
    format_dollars_short_spec.2.2.1 1500 (by rw [habs]; norm_num)
      (by rw [habs]; norm_num)⟩

end ReinsuranceDash
